import Mathlib

set_option maxRecDepth 8192

/-!
Verification development for the psf-rs PSF2 console-font parser
(`src/lib.rs`).  The Rust code is shallowly embedded: bytes are `Nat`
(callers keep them below 256), the fixed stack array `data : [u8; FILE_ZIZE - 32]`
is embedded as an indexing function `Nat → Nat` whose logical length is the
constant `DATA_LEN`, `u32` arithmetic wraps modulo `U32 = 2 ^ 32`, and Rust
panics surface as `Option.none` / `Except.error`.
-/

/-- Magic bytes that identify psf2 (`const MAGIC: [u8; 4]`). -/
def MAGIC : List Nat := [0x72, 0xb5, 0x4a, 0x86]

/-- The maximum size a font can be in bytes (`const FILE_ZIZE: usize = 0x4000`). -/
def FILE_ZIZE : Nat := 0x4000

/-- Length of the post-header data array `[u8; FILE_ZIZE - 32]`. -/
def DATA_LEN : Nat := FILE_ZIZE - 32

/-- Wraparound modulus of `u32` arithmetic. -/
def U32 : Nat := 2 ^ 32

/-- Font flags (`struct Flags`). -/
structure Flags where
  /-- Whether a unicode table is present or not. -/
  unicode : Bool
deriving DecidableEq

/-- Parses the flags from four bytes (`Flags::parse`): the Rust code tests
`raw[0] == 1`, i.e. whether the least significant byte equals exactly 1. -/
def Flags.parse (raw : List Nat) : Flags :=
  { unicode := raw.getD 0 0 == 1 }

/-- The font header (`struct Header`). -/
structure Header where
  /-- Magic that is consistent among all psfu files. -/
  magic : List Nat
  /-- The version of psfu used. -/
  version : Nat
  /-- The size of the header in bytes. -/
  size : Nat
  /-- Flags that specify a few things about the font. -/
  flags : Flags
  /-- The number of glyphs. -/
  length : Nat
  /-- The size in bytes of each glyph. -/
  glyph_size : Nat
  /-- The height of each glyph. -/
  glyph_height : Nat
  /-- The width of the glyphs. -/
  glyph_width : Nat
deriving DecidableEq

/-- The structure for the font (`struct Font`).  `data` is the byte array
after the header (an array of `DATA_LEN` bytes, embedded as its indexing
function), `size` the length of the original font file. -/
structure Font where
  header : Header
  data : Nat → Nat
  size : Nat

/-- Converts an array of four bytes into one u32, little endian
(`fn as_u32_le`). -/
def as_u32_le (array : List Nat) : Nat :=
  array.getD 0 0 + (array.getD 1 0) <<< 8 + (array.getD 2 0) <<< 16 +
    (array.getD 3 0) <<< 24

/-- The four magic bytes `[raw[0x0], raw[0x1], raw[0x2], raw[0x3]]` read by
`Font::load`. -/
def magicOf (raw : List Nat) : List Nat :=
  [raw.getD 0 0, raw.getD 1 0, raw.getD 2 0, raw.getD 3 0]

/-- The distinct panics of `Font::load`, in the order the code can hit them:
an out-of-bounds header read, the `copy_from_slice` length mismatch for
buffers above `FILE_ZIZE`, the failing `try_into` when the header size field
is not 32, and the explicit magic-mismatch panic. -/
inductive LoadError where
  | headerTruncated
  | tooLarge
  | headerSizeMismatch
  | badMagic
deriving DecidableEq

/-- Loads a font (`Font::load`).  The Rust function panics rather than
returning errors; each panic site becomes an `Except.error`.  It reads the
header fields at fixed offsets, copies the buffer into a zeroed
`FILE_ZIZE`-byte stack array, keeps the part after `header.size` bytes
(`try_into` forcing that field to equal 32), and finally checks the magic. -/
def Font.load (raw : List Nat) : Except LoadError Font :=
  if raw.length < 0xc then .error .headerTruncated
  else if FILE_ZIZE < raw.length then .error .tooLarge
  else if raw.length < 0x20 then .error .headerTruncated
  else if as_u32_le (raw.drop 0x8) = 32 then
    if magicOf raw = MAGIC then
      .ok
        { header :=
            { magic := magicOf raw
              version := as_u32_le (raw.drop 0x4)
              size := as_u32_le (raw.drop 0x8)
              flags := Flags.parse (raw.drop 0xc)
              length := as_u32_le (raw.drop 0x10)
              glyph_size := as_u32_le (raw.drop 0x14)
              glyph_height := as_u32_le (raw.drop 0x18)
              glyph_width := as_u32_le (raw.drop 0x1c) }
          data := fun i =>
            if as_u32_le (raw.drop 0x8) + i < raw.length then
              raw.getD (as_u32_le (raw.drop 0x8) + i) 0
            else 0
          size := raw.length }
    else .error .badMagic
  else .error .headerSizeMismatch

/-- Reads `n` consecutive bytes of an embedded byte array starting at
offset `off` (a Rust subslice `&d[off..off + n]`). -/
def listOf (d : Nat → Nat) (off n : Nat) : List Nat :=
  (List.range n).map (fun k => d (off + k))

/-- Whether `char::from_u32` succeeds: the value is a Unicode scalar value. -/
def isScalar (c : Nat) : Bool :=
  c < 0xD800 || (0xE000 ≤ c && c ≤ 0x10FFFF)

/-- UTF-8 encoding of a scalar value, what `encode_utf8` writes. -/
def encodeUtf8 (c : Nat) : List Nat :=
  if c < 0x80 then [c]
  else if c < 0x800 then [0xC0 + c >>> 6, 0x80 + c % 64]
  else if c < 0x10000 then
    [0xE0 + c >>> 12, 0x80 + (c >>> 6) % 64, 0x80 + c % 64]
  else
    [0xF0 + c >>> 18, 0x80 + (c >>> 12) % 64, 0x80 + (c >>> 6) % 64,
      0x80 + c % 64]

/-- The 4-byte buffer `let mut utf8 = [0; 4]` after `encode_utf8` wrote the
encoding into its front. -/
def utf8Buf (c : Nat) : List Nat :=
  encodeUtf8 c ++ List.replicate (4 - (encodeUtf8 c).length) 0

/-- The `len` computed in `glyph_index`: the number of nonzero bytes of the
4-byte buffer. -/
def needleLen (c : Nat) : Nat :=
  (utf8Buf c).countP (fun byte => decide (byte ≠ 0))

/-- The byte sequence `&utf8[..len]` that `glyph_index` searches for. -/
def needleOf (c : Nat) : List Nat :=
  (utf8Buf c).take (needleLen c)

/-- `slice::split` on the sentinel byte `0xFF`: chunks between separators,
empty chunks included, the separators dropped. -/
def splitFF : List Nat → List (List Nat)
  | [] => [[]]
  | b :: rest =>
    match splitFF rest with
    | [] => [[]]
    | chunk :: chunks =>
      if b == 0xff then [] :: chunk :: chunks else (b :: chunk) :: chunks

/-- The inner `for j in 0..entry.len()` loop of `glyph_index`: whether the
needle occurs as a window `&entry[j..j + len]` at any byte offset `j`.  The
Rust loop breaks once `j + len > entry.len()`; as that bound only grows with
`j`, breaking and skipping coincide. -/
def entryHasNeedle (entry needle : List Nat) : Bool :=
  (List.range entry.length).any (fun j =>
    decide (j + needle.length ≤ entry.length) &&
      ((entry.drop j).take needle.length == needle))

/-- The outer `for (i, entry) in table.split(..).enumerate()` loop of
`glyph_index`: starting from the default 63, every entry containing the
needle overwrites the index, so the last matching entry wins. -/
def lookupIndex (entries : List (List Nat)) (needle : List Nat) : Nat :=
  entries.enum.foldl
    (fun acc p => if entryHasNeedle p.2 needle then p.1 else acc) 63

/-- Start offset `(glyph_size * length) as usize` of the unicode table
inside `data` (u32 multiplication, hence the wraparound). -/
def tableStart (f : Font) : Nat :=
  (f.header.glyph_size * f.header.length) % U32

/-- The table slice `&self.data[tableStart..self.size]` of `glyph_index`. -/
def tableBytes (f : Font) : List Nat :=
  listOf f.data (tableStart f) (f.size - tableStart f)

/-- Gets the glyph index of a character (`Font::glyph_index`).  `none`
models the two panics: the out-of-bounds table slice and the
`char::from_u32(char).unwrap()` on values that are no Unicode scalars. -/
def Font.glyph_index (f : Font) (char : Nat) : Option Nat :=
  if !f.header.flags.unicode || char < 128 then some char
  else if tableStart f ≤ f.size ∧ f.size ≤ DATA_LEN then
    if isScalar char then
      some (lookupIndex (splitFF (tableBytes f)) (needleOf char))
    else none
  else none

/-- Start `glyph_size * char` of the displayed glyph record, as u32. -/
def glyphLo (f : Font) (idx : Nat) : Nat :=
  (f.header.glyph_size * idx) % U32

/-- End `glyph_size * (char + 1)` of the displayed glyph record, as u32. -/
def glyphHi (f : Font) (idx : Nat) : Nat :=
  (f.header.glyph_size * ((idx + 1) % U32)) % U32

/-- The glyph record slice `&self.data[from..to]` read by `display_glyph`. -/
def glyphBytes (f : Font) (idx : Nat) : List Nat :=
  listOf f.data (glyphLo f idx) (glyphHi f idx - glyphLo f idx)

/-- One byte of the bitmap walk: for `j in 0..8` the callback receives
`((byte >> (7 - j)) & 1, j, i as u8)`. -/
def byteBits (byte y : Nat) : List (Nat × Nat × Nat) :=
  (List.range 8).map (fun j => ((byte >>> (7 - j)) % 2, j, y))

/-- The `for (i, byte) in slice.iter().enumerate()` walk of `display_glyph`,
`i` the enumeration counter (`i as u8` truncates it modulo 256). -/
def glyphTrace : List Nat → Nat → List (Nat × Nat × Nat)
  | [], _ => []
  | byte :: rest, i => byteBits byte (i % 256) ++ glyphTrace rest (i + 1)

/-- Displays a glyph (`Font::display_glyph`), returned as the sequence of
`(bit, x, y)` callback invocations.  `none` models the panics: the failing
`TryInto<u32>` conversion, the panics inside `glyph_index`, and the
out-of-bounds glyph record slice. -/
def Font.display_glyph (f : Font) (char : Nat) : Option (List (Nat × Nat × Nat)) :=
  if U32 ≤ char then none
  else
    (f.glyph_index char).bind (fun idx =>
      if glyphLo f idx ≤ glyphHi f idx ∧ glyphHi f idx ≤ DATA_LEN then
        some (glyphTrace (glyphBytes f idx) 0)
      else none)

/-- Whether `Font::load` returns without panicking. -/
def loadOk (raw : List Nat) : Bool :=
  (Font.load raw).toOption.isSome

/-- A placeholder font, returned by `loadedFont` when loading fails. -/
def fallbackFont : Font :=
  { header :=
      { magic := [], version := 0, size := 0, flags := { unicode := false }
        length := 0, glyph_size := 0, glyph_height := 0, glyph_width := 0 }
    data := fun _ => 0
    size := 0 }

/-- The font produced by a successful `Font::load`. -/
def loadedFont (raw : List Nat) : Font :=
  (Font.load raw).toOption.getD fallbackFont

/-- Modelled from the spec (section 4.3), which is not what the code does:
the byte length of a UTF-8 sequence determined from the lead byte, lead
nibble 0xC/0xD giving 2 bytes, 0xE giving 3, 0xF giving 4, otherwise 1. -/
def utf8LenOfLead (b : Nat) : Nat :=
  if b >>> 4 = 0xC || b >>> 4 = 0xD then 2
  else if b >>> 4 = 0xE then 3
  else if b >>> 4 = 0xF then 4
  else 1

/-- Modelled from the spec (section 4.3), which is not what the code does:
fuel-driven worker for `specEntrySeqs`; the fuel is an upper bound on the
number of parsed sequences and never runs out when it starts at the length
of the entry. -/
def specSeqsAux : Nat → List Nat → List (List Nat)
  | _, [] => []
  | 0, _ :: _ => []
  | fuel + 1, b :: rest =>
    (b :: rest.take (utf8LenOfLead b - 1)) ::
      specSeqsAux fuel (rest.drop (utf8LenOfLead b - 1))

/-- Modelled from the spec (section 4.3), which is not what the code does:
splits a unicode-table entry into back-to-back codepoint byte sequences,
each sequence length taken from its lead byte. -/
def specEntrySeqs (entry : List Nat) : List (List Nat) :=
  specSeqsAux entry.length entry

/-- Test font A: a loadable buffer without unicode table; one glyph of one
byte 0xB4, declared glyph_height 1 and glyph_width 6. -/
def bufA : List Nat :=
  [0x72, 0xb5, 0x4a, 0x86, 0, 0, 0, 0, 32, 0, 0, 0, 0, 0, 0, 0,
   1, 0, 0, 0, 1, 0, 0, 0, 1, 0, 0, 0, 6, 0, 0, 0, 0xb4]

/-- Test font B: a loadable 32-byte buffer (header only) declaring two
glyphs of 9999 bytes each, far beyond the buffer. -/
def bufB : List Nat :=
  [0x72, 0xb5, 0x4a, 0x86, 0, 0, 0, 0, 32, 0, 0, 0, 0, 0, 0, 0,
   2, 0, 0, 0, 0x0f, 0x27, 0, 0, 1, 0, 0, 0, 8, 0, 0, 0]

/-- Test font C: a loadable buffer with unicode table; one glyph of one
byte, glyph_height 1 and glyph_width 8, and the table entry
`[0xC3, 0xC3, 0x84]` for glyph 0 terminated by the 0xFF sentinel. -/
def bufC : List Nat :=
  [0x72, 0xb5, 0x4a, 0x86, 0, 0, 0, 0, 32, 0, 0, 0, 1, 0, 0, 0,
   1, 0, 0, 0, 1, 0, 0, 0, 1, 0, 0, 0, 8, 0, 0, 0, 0x00,
   0xc3, 0xc3, 0x84, 0xff]

/-- The callback trace of test font A for glyph index 0: all 8 bits of the
byte 0xB4, the x coordinate running over the full byte. -/
def traceA : List (Nat × Nat × Nat) :=
  [(1, 0, 0), (0, 1, 0), (1, 2, 0), (1, 3, 0), (0, 4, 0), (1, 5, 0),
   (0, 6, 0), (0, 7, 0)]

/-- The callback trace of one all-zero glyph byte, produced when
`display_glyph` walks a record lying in the zero padding of the stack
array. -/
def zeroTrace : List (Nat × Nat × Nat) :=
  [(0, 0, 0), (0, 1, 0), (0, 2, 0), (0, 3, 0), (0, 4, 0), (0, 5, 0),
   (0, 6, 0), (0, 7, 0)]

/-! Helper lemmas about the embedded operations. -/

theorem flatMap_congr_mem {α β : Type} {l : List α} {f g : α → List β}
    (h : ∀ a ∈ l, f a = g a) : l.flatMap f = l.flatMap g := by
  induction l with
  | nil => rfl
  | cons b rest ih => simp_all [List.flatMap_cons]

theorem snd_mem_of_mem_enum {α : Type} {p : Nat × α} {xs : List α}
    (h : p ∈ xs.enum) : p.2 ∈ xs := by
  obtain ⟨h1, h2⟩ := List.mem_enum h
  rw [h2]
  exact List.getElem_mem h1

theorem foldl_lookup_cases (needle : List Nat) :
    ∀ (l : List (Nat × List Nat)) (acc : Nat),
      l.foldl (fun a p => if entryHasNeedle p.2 needle then p.1 else a) acc = acc ∨
        ∃ p ∈ l, entryHasNeedle p.2 needle = true ∧
          l.foldl (fun a p => if entryHasNeedle p.2 needle then p.1 else a) acc = p.1 := by
  intro l
  induction l with
  | nil => intro acc; exact Or.inl rfl
  | cons q rest ih =>
    intro acc
    by_cases hq : entryHasNeedle q.2 needle = true
    · rcases ih q.1 with h | ⟨p, hp, hm, he⟩
      · refine Or.inr ⟨q, List.mem_cons_self q rest, hq, ?_⟩
        simpa [List.foldl_cons, hq] using h
      · refine Or.inr ⟨p, List.mem_cons_of_mem q hp, hm, ?_⟩
        simpa [List.foldl_cons, hq] using he
    · rcases ih acc with h | ⟨p, hp, hm, he⟩
      · refine Or.inl ?_
        simpa [List.foldl_cons, hq] using h
      · refine Or.inr ⟨p, List.mem_cons_of_mem q hp, hm, ?_⟩
        simpa [List.foldl_cons, hq] using he

theorem lookupIndex_cases (entries : List (List Nat)) (needle : List Nat) :
    lookupIndex entries needle = 63 ∨
      ∃ p ∈ entries.enum, entryHasNeedle p.2 needle = true ∧
        lookupIndex entries needle = p.1 := by
  unfold lookupIndex
  exact foldl_lookup_cases needle entries.enum 63

theorem lookupIndex_of_no_match {entries : List (List Nat)} {needle : List Nat}
    (h : ∀ e ∈ entries, entryHasNeedle e needle = false) :
    lookupIndex entries needle = 63 := by
  rcases lookupIndex_cases entries needle with h63 | ⟨p, hp, hm, -⟩
  · exact h63
  · rw [h p.2 (snd_mem_of_mem_enum hp)] at hm
    cases hm

theorem entryHasNeedle_exists {entry needle : List Nat}
    (h : entryHasNeedle entry needle = true) :
    ∃ j, j + needle.length ≤ entry.length ∧
      (entry.drop j).take needle.length = needle := by
  unfold entryHasNeedle at h
  obtain ⟨j, -, hj⟩ := List.any_eq_true.mp h
  rw [Bool.and_eq_true, decide_eq_true_eq, beq_iff_eq] at hj
  exact ⟨j, hj.1, hj.2⟩

theorem listOf_length (d : Nat → Nat) (off n : Nat) : (listOf d off n).length = n := by
  simp [listOf]

theorem glyphBytes_length (f : Font) (idx : Nat) :
    (glyphBytes f idx).length = glyphHi f idx - glyphLo f idx := by
  simp [glyphBytes, listOf_length]

theorem glyph_range_size {gs idx lo hi : Nat}
    (hlo : lo = gs * idx % U32) (hhi : hi = (gs * ((idx + 1) % U32)) % U32)
    (hgs : gs ≤ 256) (hle : lo ≤ hi) (hb : hi ≤ DATA_LEN) :
    hi - lo = gs := by
  have hmm : (idx + 1) % U32 % U32 = (idx + 1) % U32 :=
    Nat.mod_eq_of_lt (Nat.mod_lt _ (by norm_num [U32]))
  have hco : hi = (gs * idx + gs) % U32 := by
    rw [hhi, Nat.mul_mod, hmm, ← Nat.mul_mod, Nat.mul_add, Nat.mul_one]
  have h32 : U32 = 4294967296 := by norm_num [U32]
  have hd : DATA_LEN = 16352 := by norm_num [DATA_LEN, FILE_ZIZE]
  rw [hco, hlo] at *
  generalize gs * idx = a at *
  rw [h32] at *
  rw [hd] at hb
  omega

theorem glyphTrace_length : ∀ (bytes : List Nat) (i : Nat),
    (glyphTrace bytes i).length = 8 * bytes.length := by
  intro bytes
  induction bytes with
  | nil => intro i; simp [glyphTrace]
  | cons b rest ih =>
    intro i
    simp [glyphTrace, byteBits, ih (i + 1)]
    omega

theorem glyphTrace_eq : ∀ (bytes : List Nat) (i : Nat),
    glyphTrace bytes i = (List.range bytes.length).flatMap
      (fun y => (List.range 8).map
        (fun x => ((bytes.getD y 0 >>> (7 - x)) % 2, x, (i + y) % 256))) := by
  intro bytes
  induction bytes with
  | nil => intro i; simp [glyphTrace]
  | cons b rest ih =>
    intro i
    show byteBits b (i % 256) ++ glyphTrace rest (i + 1) = _
    rw [ih (i + 1), List.length_cons, List.range_succ_eq_map rest.length,
      List.flatMap_cons, List.flatMap_map]
    have h1 : byteBits b (i % 256) =
        List.map
          (fun x => (((b :: rest).getD 0 0 >>> (7 - x)) % 2, x, (i + 0) % 256))
          (List.range 8) := by
      simp [byteBits]
    have h2 : ((List.range rest.length).flatMap fun y =>
          List.map
            (fun x => ((rest.getD y 0 >>> (7 - x)) % 2, x, (i + 1 + y) % 256))
            (List.range 8)) =
        (List.range rest.length).flatMap fun y =>
          List.map
            (fun x => (((b :: rest).getD (Nat.succ y) 0 >>> (7 - x)) % 2, x,
              (i + Nat.succ y) % 256))
            (List.range 8) := by
      refine flatMap_congr_mem ?_
      intro y _
      have harith : i + 1 + y = i + Nat.succ y := by omega
      rw [harith]
      simp [List.getD_cons_succ]
    rw [h1, h2]

theorem glyphTrace_rowMajor (bytes : List Nat) (h : bytes.length ≤ 256) :
    glyphTrace bytes 0 = (List.range bytes.length).flatMap
      (fun y => (List.range 8).map
        (fun x => ((bytes.getD y 0 >>> (7 - x)) % 2, x, y))) := by
  rw [glyphTrace_eq]
  refine flatMap_congr_mem ?_
  intro y hy
  have hlt : y < 256 := lt_of_lt_of_le (List.mem_range.mp hy) h
  rw [Nat.zero_add, Nat.mod_eq_of_lt hlt]

/-! Claim theorems. -/

/-- Claim C1, counterexample: font A loads, declares glyph_height 1 and
glyph_width 6, yet displaying in-range glyph 0 emits 8 callbacks instead of
glyph_height * glyph_width = 6, and emits the stride padding bits at
x = 6 and x = 7 even though they lie at or beyond the declared width. -/
theorem C1_counterexample :
    loadOk bufA = true ∧
    (loadedFont bufA).header.glyph_height * (loadedFont bufA).header.glyph_width = 6 ∧
    (loadedFont bufA).display_glyph 0 = some traceA ∧
    traceA.length = 8 ∧ (0, 6, 0) ∈ traceA ∧ (0, 7, 0) ∈ traceA := by decide

/-- Claim C1, amended: display_glyph emits 8 callbacks per byte of the glyph
record; only when glyph_width = 8 and glyph_height = glyph_size (at most
256) does every successful call emit exactly glyph_height * glyph_width
callbacks in strict row-major order with every x below the width and every
y below the height. -/
theorem C1_amended_display_trace (raw : List Nat) (f : Font) (c : Nat)
    (t : List (Nat × Nat × Nat)) (_hload : Font.load raw = .ok f)
    (hw : f.header.glyph_width = 8)
    (hh : f.header.glyph_height = f.header.glyph_size)
    (hgs : f.header.glyph_size ≤ 256)
    (ht : f.display_glyph c = some t) :
    t.length = f.header.glyph_height * f.header.glyph_width ∧
    (∀ p ∈ t, p.2.1 < f.header.glyph_width ∧ p.2.2 < f.header.glyph_height) ∧
    ∃ pix : Nat → Nat → Nat,
      t = (List.range f.header.glyph_height).flatMap
        (fun y => (List.range f.header.glyph_width).map
          (fun x => (pix x y, x, y))) := by
  unfold Font.display_glyph at ht
  by_cases hcu : U32 ≤ c
  · rw [if_pos hcu] at ht
    simp at ht
  · rw [if_neg hcu] at ht
    cases hidx : f.glyph_index c with
    | none => rw [hidx] at ht; simp at ht
    | some idx =>
      rw [hidx, Option.some_bind] at ht
      by_cases hguard : glyphLo f idx ≤ glyphHi f idx ∧ glyphHi f idx ≤ DATA_LEN
      · rw [if_pos hguard] at ht
        have hteq : glyphTrace (glyphBytes f idx) 0 = t := Option.some.inj ht
        have hlen : (glyphBytes f idx).length = f.header.glyph_size := by
          rw [glyphBytes_length]
          exact glyph_range_size rfl rfl hgs hguard.1 hguard.2
        have hle : (glyphBytes f idx).length ≤ 256 := by rw [hlen]; exact hgs
        have hrm := glyphTrace_rowMajor (glyphBytes f idx) hle
        rw [hteq] at hrm
        refine ⟨?_, ?_, ?_⟩
        · rw [← hteq, glyphTrace_length, hlen, hh, hw]
          omega
        · intro p hp
          rw [hrm] at hp
          obtain ⟨y, hy, hp2⟩ := List.mem_flatMap.mp hp
          obtain ⟨x, hx, hp3⟩ := List.mem_map.mp hp2
          rw [← hp3]
          refine ⟨?_, ?_⟩
          · simpa [hw] using List.mem_range.mp hx
          · have hyl := List.mem_range.mp hy
            rw [hlen, ← hh] at hyl
            simpa using hyl
        · refine ⟨fun x y => ((glyphBytes f idx).getD y 0 >>> (7 - x)) % 2, ?_⟩
          rw [hw, hh, ← hlen]
          simpa using hrm
      · rw [if_neg hguard] at ht
        simp at ht

/-- Claim C1, witness: font C has glyph_width 8 and glyph_height =
glyph_size = 1, so displaying codepoint 65 emits exactly 1 * 8 callbacks in
row-major order with bounded coordinates. -/
theorem C1_witness :
    zeroTrace.length =
      (loadedFont bufC).header.glyph_height * (loadedFont bufC).header.glyph_width ∧
    (∀ p ∈ zeroTrace, p.2.1 < (loadedFont bufC).header.glyph_width ∧
      p.2.2 < (loadedFont bufC).header.glyph_height) ∧
    ∃ pix : Nat → Nat → Nat,
      zeroTrace = (List.range (loadedFont bufC).header.glyph_height).flatMap
        (fun y => (List.range (loadedFont bufC).header.glyph_width).map
          (fun x => (pix x y, x, y))) :=
  C1_amended_display_trace bufC (loadedFont bufC) 65 zeroTrace rfl (by decide)
    (by decide) (by decide) (by decide)

/-- Claim C2, counterexample: font B loads successfully although its
declared bitmap region of glyph_count * glyph_byte_size = 19998 bytes lies
far outside the 32-byte buffer, so load does not validate the size
invariants the claim demands. -/
theorem C2_counterexample :
    loadOk bufB = true ∧
    bufB.length <
      32 + (loadedFont bufB).header.glyph_size * (loadedFont bufB).header.length := by
  decide

/-- Claim C2, amended: load succeeds iff the buffer is at least 0x20 and at
most 0x4000 bytes long, the header size field decodes to exactly 32 and the
magic matches; the bitmap and table regions are never validated. -/
theorem C2_amended_load_ok_iff (raw : List Nat) :
    loadOk raw = true ↔
      0x20 ≤ raw.length ∧ raw.length ≤ FILE_ZIZE ∧
        as_u32_le (raw.drop 0x8) = 32 ∧ magicOf raw = MAGIC := by
  unfold loadOk Font.load
  split_ifs with h1 h2 h3 h4 h5
  · exact iff_of_false (by simp [Except.toOption])
      (by rintro ⟨ha, -, -, -⟩; omega)
  · exact iff_of_false (by simp [Except.toOption])
      (by rintro ⟨-, hb, -, -⟩; omega)
  · exact iff_of_false (by simp [Except.toOption])
      (by rintro ⟨ha, -, -, -⟩; omega)
  · exact iff_of_true (by simp [Except.toOption]) ⟨by omega, by omega, h4, h5⟩
  · exact iff_of_false (by simp [Except.toOption])
      (by rintro ⟨-, -, -, hm⟩; exact h5 hm)
  · exact iff_of_false (by simp [Except.toOption])
      (by rintro ⟨-, -, hs, -⟩; exact h4 hs)

/-- Claim C3, counterexample: font A loads with glyph_count 1, yet
resolution maps codepoint 5 to glyph index 5, which is not below
glyph_count, and the rasterizer then happily reads the byte range [5, 6)
outside the 1-byte bitmap region (zero padding of the stack array). -/
theorem C3_counterexample :
    loadOk bufA = true ∧ (loadedFont bufA).header.length = 1 ∧
    (loadedFont bufA).glyph_index 5 = some 5 ∧
    ¬(5 < (loadedFont bufA).header.length) ∧
    (loadedFont bufA).display_glyph 5 = some zeroTrace := by decide

/-- Claim C3, amended: resolution does not bound its result by glyph_count;
for a loaded font without a unicode table every codepoint at or above
glyph_count resolves to itself, an index outside the valid range. -/
theorem C3_amended_index_unbounded (raw : List Nat) (f : Font) (c : Nat)
    (_hload : Font.load raw = .ok f) (hu : f.header.flags.unicode = false)
    (hc : f.header.length ≤ c) :
    ∃ i, f.glyph_index c = some i ∧ f.header.length ≤ i := by
  refine ⟨c, ?_, hc⟩
  unfold Font.glyph_index
  rw [hu]
  simp

/-- Claim C3, witness: in font A (glyph_count 1, no table) codepoint 300
resolves to an index at or above glyph_count. -/
theorem C3_witness :
    ∃ i, (loadedFont bufA).glyph_index 300 = some i ∧
      (loadedFont bufA).header.length ≤ i :=
  C3_amended_index_unbounded bufA (loadedFont bufA) 300 rfl (by decide) (by decide)

/-- Claim C4, counterexample: font C loads with a unicode table whose entry
for glyph 0 is the bytes C3 C3 84.  Back-to-back lead-byte parsing (the
claimed algorithm, specEntrySeqs) splits it into the sequences [C3, C3] and
[84], which do not contain the encoding [C3, 84] of codepoint 0xC4 - yet
the code resolves 0xC4 to glyph 0, matching the window that starts at the
second byte, a continuation position of the first parsed sequence. -/
theorem C4_counterexample :
    loadOk bufC = true ∧ (loadedFont bufC).header.flags.unicode = true ∧
    (splitFF (tableBytes (loadedFont bufC))).getD 0 [] = [0xC3, 0xC3, 0x84] ∧
    needleOf 0xC4 = [0xC3, 0x84] ∧
    specEntrySeqs [0xC3, 0xC3, 0x84] = [[0xC3, 0xC3], [0x84]] ∧
    [0xC3, 0x84] ∉ specEntrySeqs [0xC3, 0xC3, 0x84] ∧
    (loadedFont bufC).glyph_index 0xC4 = some 0 := by decide

/-- Claim C4, amended: lookup does not parse entries into back-to-back
sequences by lead-byte length; whenever resolution of a codepoint at or
above 128 returns an index other than the default 63, the UTF-8 encoding of
the codepoint occurs as a contiguous byte window at some (arbitrary) offset
of a table entry. -/
theorem C4_amended_substring_match (f : Font) (c i : Nat)
    (hu : f.header.flags.unicode = true) (hc : 128 ≤ c)
    (h : f.glyph_index c = some i) (hne : i ≠ 63) :
    ∃ entry ∈ splitFF (tableBytes f), ∃ j,
      j + (needleOf c).length ≤ entry.length ∧
        (entry.drop j).take (needleOf c).length = needleOf c := by
  unfold Font.glyph_index at h
  rw [hu] at h
  have hc' : ¬ c < 128 := by omega
  simp only [hc', Bool.not_true, Bool.false_or, decide_eq_true_eq, if_false,
    decide_False, Bool.false_eq_true] at h
  split at h
  · split at h
    · have hi := Option.some.inj h
      rcases lookupIndex_cases (splitFF (tableBytes f)) (needleOf c) with
        h63 | ⟨p, hp, hm, he⟩
      · rw [h63] at hi
        exact absurd hi.symm hne
      · exact ⟨p.2, snd_mem_of_mem_enum hp, entryHasNeedle_exists hm⟩
    · simp at h
  · simp at h

/-- Claim C4, witness: the amended statement applied to font C and
codepoint 0xC4, which resolves to glyph 0. -/
theorem C4_witness :
    ∃ entry ∈ splitFF (tableBytes (loadedFont bufC)), ∃ j,
      j + (needleOf 0xC4).length ≤ entry.length ∧
        (entry.drop j).take (needleOf 0xC4).length = needleOf 0xC4 :=
  C4_amended_substring_match (loadedFont bufC) 0xC4 0 (by decide) (by decide)
    (by decide) (by decide)

/-- Claim C5, confirmed: for every successfully loaded font without a
unicode table and every codepoint below 128, resolution returns the
codepoint itself. -/
theorem C5_ascii_identity (raw : List Nat) (f : Font) (c : Nat)
    (_hload : Font.load raw = .ok f) (hu : f.header.flags.unicode = false)
    (_hc : c < 128) : f.glyph_index c = some c := by
  unfold Font.glyph_index
  rw [hu]
  simp

/-- Claim C5, witness: in font A codepoint 65 resolves to 65. -/
theorem C5_witness : (loadedFont bufA).glyph_index 65 = some 65 :=
  C5_ascii_identity bufA (loadedFont bufA) 65 rfl (by decide) (by decide)

/-- Claim C6, counterexample: font C loads with a unicode table; codepoint
0xD800 is at least 128 and matches no table entry, yet resolution panics
(models as none) on the char-from-u32 unwrap instead of returning the index
63 of the question mark. -/
theorem C6_counterexample :
    loadOk bufC = true ∧ (loadedFont bufC).header.flags.unicode = true ∧
    (∀ e ∈ splitFF (tableBytes (loadedFont bufC)),
      entryHasNeedle e (needleOf 0xD800) = false) ∧
    (loadedFont bufC).glyph_index 0xD800 = none := by decide

/-- Claim C6, amended: for a loaded font with a unicode table whose table
region is within bounds, every Unicode scalar value at or above 128 with no
matching table entry resolves to 63, the same index that resolving the
question mark (codepoint 63) yields; values that are no scalars panic
instead. -/
theorem C6_amended_fallback (raw : List Nat) (f : Font) (c : Nat)
    (_hload : Font.load raw = .ok f)
    (hu : f.header.flags.unicode = true) (hc : 128 ≤ c)
    (hs : isScalar c = true) (h1 : tableStart f ≤ f.size) (h2 : f.size ≤ DATA_LEN)
    (hmiss : ∀ e ∈ splitFF (tableBytes f), entryHasNeedle e (needleOf c) = false) :
    f.glyph_index c = some 63 ∧ f.glyph_index 63 = some 63 := by
  constructor
  · unfold Font.glyph_index
    rw [hu]
    have hc' : ¬ c < 128 := by omega
    simp only [hc', Bool.not_true, Bool.false_or, decide_eq_true_eq, if_false,
      decide_False, Bool.false_eq_true]
    rw [if_pos ⟨h1, h2⟩, if_pos hs, lookupIndex_of_no_match hmiss]
  · unfold Font.glyph_index
    rw [hu]
    simp

/-- Claim C6, witness: in font C the scalar 0x2192 has no table entry and
resolves to 63, as does the question mark. -/
theorem C6_witness :
    (loadedFont bufC).glyph_index 0x2192 = some 63 ∧
      (loadedFont bufC).glyph_index 63 = some 63 :=
  C6_amended_fallback bufC (loadedFont bufC) 0x2192 rfl (by decide) (by decide)
    (by decide) (by decide) (by decide) (by decide)

/-- Claim C7, counterexample: font A has no unicode table; codepoint 200
resolves to 200 itself, not to the question-mark index 63 the table-miss
policy would give. -/
theorem C7_counterexample :
    loadOk bufA = true ∧ (loadedFont bufA).header.flags.unicode = false ∧
    (loadedFont bufA).glyph_index 200 = some 200 ∧
    (loadedFont bufA).glyph_index 63 = some 63 ∧ (200 : Nat) ≠ 63 := by decide

/-- Claim C7, amended: for every successfully loaded font without a unicode
table, every codepoint at or above 128 resolves to the codepoint itself
rather than falling through to the question-mark fallback. -/
theorem C7_amended_no_table_identity (raw : List Nat) (f : Font) (c : Nat)
    (_hload : Font.load raw = .ok f) (hu : f.header.flags.unicode = false)
    (_hc : 128 ≤ c) : f.glyph_index c = some c := by
  unfold Font.glyph_index
  rw [hu]
  simp

/-- Claim C7, witness: in font A codepoint 200 resolves to itself. -/
theorem C7_witness : (loadedFont bufA).glyph_index 200 = some 200 :=
  C7_amended_no_table_identity bufA (loadedFont bufA) 200 rfl (by decide)
    (by decide)

/-- Claim C8, counterexample: font C loads successfully, yet resolution and
rasterization of codepoint 0xD800 both panic (model as none) on the
char-from-u32 unwrap, so they can fail after construction. -/
theorem C8_counterexample :
    loadOk bufC = true ∧ (loadedFont bufC).glyph_index 0xD800 = none ∧
    (loadedFont bufC).display_glyph 0xD800 = none := by decide

/-- Claim C8, amended: resolution and rasterization can panic after a
successful load; they are guaranteed to succeed only under extra
conditions, for example for a font without a unicode table whenever the
computed glyph byte range fits into the stack data array. -/
theorem C8_amended_no_table_safety (raw : List Nat) (f : Font) (c : Nat)
    (_hload : Font.load raw = .ok f) (hu : f.header.flags.unicode = false)
    (hc : c + 1 < U32) (hr : f.header.glyph_size * (c + 1) ≤ DATA_LEN) :
    f.glyph_index c = some c ∧ (f.display_glyph c).isSome = true := by
  have hidx : f.glyph_index c = some c := by
    unfold Font.glyph_index
    rw [hu]
    simp
  refine ⟨hidx, ?_⟩
  unfold Font.display_glyph
  have hcu : ¬ U32 ≤ c := by omega
  rw [if_neg hcu, hidx, Option.some_bind]
  have hdu : DATA_LEN < U32 := by norm_num [DATA_LEN, FILE_ZIZE, U32]
  have hmono : f.header.glyph_size * c ≤ f.header.glyph_size * (c + 1) :=
    Nat.mul_le_mul le_rfl (by omega)
  have hlo : glyphLo f c = f.header.glyph_size * c := by
    unfold glyphLo
    exact Nat.mod_eq_of_lt (by omega)
  have hhi : glyphHi f c = f.header.glyph_size * (c + 1) := by
    unfold glyphHi
    rw [Nat.mod_eq_of_lt hc]
    exact Nat.mod_eq_of_lt (by omega)
  rw [if_pos ⟨by rw [hlo, hhi]; exact hmono, by rw [hhi]; exact hr⟩]
  simp

/-- Claim C8, witness: in font A codepoint 65 resolves and rasterizes
without failure. -/
theorem C8_witness :
    (loadedFont bufA).glyph_index 65 = some 65 ∧
      ((loadedFont bufA).display_glyph 65).isSome = true :=
  C8_amended_no_table_safety bufA (loadedFont bufA) 65 rfl (by decide)
    (by decide) (by decide)

/-- Claim C9, counterexample: the flags field 3 has bit 0 set, yet parsing
the bytes [3, 0, 0, 0] yields unicode = false, because the code compares
the first byte against the exact value 1 instead of testing bit 0. -/
theorem C9_counterexample :
    (Flags.parse [3, 0, 0, 0]).unicode = false ∧
      as_u32_le [3, 0, 0, 0] % 2 = 1 := by decide

/-- Claim C9, amended: the parsed unicode flag is true iff the least
significant byte of the little-endian flags field equals exactly 1,
regardless of the other three bytes. -/
theorem C9_amended_flag_byte (b0 b1 b2 b3 : Nat) (h : b0 < 256) :
    (Flags.parse [b0, b1, b2, b3]).unicode = true ↔
      as_u32_le [b0, b1, b2, b3] % 2 ^ 8 = 1 := by
  simp only [Flags.parse, as_u32_le, List.getD_cons_zero, List.getD_cons_succ,
    Nat.shiftLeft_eq, beq_iff_eq]
  have e8 : (2 : Nat) ^ 8 = 256 := by norm_num
  have e16 : (2 : Nat) ^ 16 = 65536 := by norm_num
  have e24 : (2 : Nat) ^ 24 = 16777216 := by norm_num
  rw [e8, e16, e24]
  constructor <;> intro hh <;> omega

/-- Claim C9, witness: the flags bytes [1, 0, 0, 0] parse to unicode =
true. -/
theorem C9_witness : (Flags.parse [1, 0, 0, 0]).unicode = true :=
  (C9_amended_flag_byte 1 0 0 0 (by decide)).mpr (by decide)

/-- Claim C10, confirmed: every buffer longer than FILE_ZIZE = 0x4000 bytes
makes load fail (the copy into the fixed stack array panics), whatever the
buffer holds. -/
theorem C10_size_cap (raw : List Nat) (h : FILE_ZIZE < raw.length) :
    Font.load raw = .error .tooLarge := by
  unfold Font.load
  have h1 : ¬ raw.length < 0xc := by
    have h12 : (12 : Nat) ≤ FILE_ZIZE := by norm_num [FILE_ZIZE]
    omega
  rw [if_neg h1, if_pos h]

/-- Claim C10, witness: a 16385-byte buffer fails to load. -/
theorem C10_witness : Font.load (List.replicate 16385 0) = .error .tooLarge :=
  C10_size_cap (List.replicate 16385 0)
    (by rw [List.length_replicate]; norm_num [FILE_ZIZE])
